import Mathlib

/-!
Shallow embedding of the StarBase variable/event engine (src/src/Sys/SysModModel.cpp).
Vars are ArduinoJson objects; we model a var as a `Node` with one field per JSON key
used by the code ("id", "pid", "value", "type", "o", "ro", "p", "fun", "dash",
"oldValue", "n" = children).  JSON variants are modelled by `JVal`.
-/

namespace SysMod

/-- JSON variants as stored in the ArduinoJson model document. -/
inductive JVal where
  | null
  | b (v : Bool)
  | i (v : Int)
  | s (v : String)
  | arr (xs : List JVal)
  | obj (xs : List (String × JVal))

/-- `JsonVariant::isNull`. -/
def JVal.isNull : JVal → Bool
  | .null => true
  | _ => false

/-- `JsonVariant::is<JsonArray>`. -/
def JVal.isArr : JVal → Bool
  | .arr _ => true
  | _ => false

/-- `JsonVariant::is<JsonObject>`. -/
def JVal.isObj : JVal → Bool
  | .obj _ => true
  | _ => false

/-- `JsonVariant::as<JsonArray>`: a non-array converts to the null array, which
iterates as empty. -/
def JVal.asArr : JVal → List JVal
  | .arr xs => xs
  | _ => []

/-- Array subscript `v[i]`: null when out of bounds or not an array. -/
def JVal.index (v : JVal) (i : Nat) : JVal :=
  (v.asArr).getD i JVal.null

/-- `JsonVariant::as<int>`; null reads as 0, booleans as 0/1.  (Numeric strings,
which ArduinoJson would parse, do not occur in the modelled fields.) -/
def JVal.asInt : JVal → Int
  | .i v => v
  | .b true => 1
  | _ => 0

/-- `JsonVariant::as<uint8_t>`: C++ modular conversion to 8 bits. -/
def JVal.asU8 (v : JVal) : Nat := (v.asInt % 256).toNat

/-- `JsonVariant::as<uint16_t>`: C++ modular conversion to 16 bits. -/
def JVal.asU16 (v : JVal) : Nat := (v.asInt % 65536).toNat

/-- `size_t funNr = var["fun"]`: C++ modular conversion to 64 bits. -/
def JVal.asSizeT (v : JVal) : Nat := (v.asInt % (2 ^ 64)).toNat

/-- Modelled from the spec: the `bool3State` tri-state boolean (its converter lives
in headers not under src/); stored as a byte, booleans as 0/1. -/
def JVal.asBool3 : JVal → Nat
  | .b true => 1
  | .b false => 0
  | v => (v.asInt % 256).toNat

/-- `JsonVariant::as<JsonString>`: null for non-strings. -/
def JVal.asJsonString : JVal → Option String
  | .s t => some t
  | _ => none

/-- `JsonVariant::as<const char *>` fed to `strlcpy`; a null source is modelled as
the empty string (the graceful reading; the fixed buffer width of `VectorString`
is declared in a header not under src/ and truncation is not modelled). -/
def JVal.asCStr (v : JVal) : String := (v.asJsonString).getD ""

/-- Key lookup in a JSON object; null when absent or not an object. -/
def JVal.objGet (v : JVal) (k : String) : JVal :=
  match v with
  | .obj xs => ((xs.find? (fun kv => kv.1 = k)).map (fun kv => kv.2)).getD JVal.null
  | _ => JVal.null

/-- The `Coord3D` native 3-tuple. -/
structure Coord3D where
  x : Int
  y : Int
  z : Int

/-- Modelled from the spec: the `Coord3D` JSON converter (declared in headers not
under src/) reads the three numeric components. -/
def JVal.asCoord3D (v : JVal) : Coord3D :=
  ⟨(v.objGet "x").asInt, (v.objGet "y").asInt, (v.objGet "z").asInt⟩

/-- One var of the model tree.  Field order: id, pid, value, type, o (order),
ro (read only), p (bound pointer), funNr (the "fun" handler index), dash, oldValue,
n (children). -/
inductive Node where
  | mk (id : String) (pid : String) (value : JVal) (type : String) (o : JVal)
       (ro : Bool) (p : JVal) (funNr : JVal) (dash : JVal) (oldValue : JVal)
       (n : List Node)

def Node.id : Node → String
  | .mk v _ _ _ _ _ _ _ _ _ _ => v

def Node.pid : Node → String
  | .mk _ v _ _ _ _ _ _ _ _ _ => v

def Node.value : Node → JVal
  | .mk _ _ v _ _ _ _ _ _ _ _ => v

def Node.type : Node → String
  | .mk _ _ _ v _ _ _ _ _ _ _ => v

def Node.o : Node → JVal
  | .mk _ _ _ _ v _ _ _ _ _ _ => v

def Node.ro : Node → Bool
  | .mk _ _ _ _ _ v _ _ _ _ _ => v

def Node.p : Node → JVal
  | .mk _ _ _ _ _ _ v _ _ _ _ => v

def Node.funNr : Node → JVal
  | .mk _ _ _ _ _ _ _ v _ _ _ => v

def Node.dash : Node → JVal
  | .mk _ _ _ _ _ _ _ _ v _ _ => v

def Node.oldValue : Node → JVal
  | .mk _ _ _ _ _ _ _ _ _ v _ => v

/-- `Variable::children()`, i.e. `var["n"]`. -/
def Node.children : Node → List Node
  | .mk _ _ _ _ _ _ _ _ _ _ v => v

/-- `Variable::order()`: `var["o"]` read as int (0 when absent). -/
def Node.order (v : Node) : Int := v.o.asInt

/-- Write `var["o"]`. -/
def Node.setO : Node → JVal → Node
  | .mk id pid value ty _ ro p funNr dash oldValue n, o' =>
      .mk id pid value ty o' ro p funNr dash oldValue n

/-- Write `var["fun"]`. -/
def Node.setFun : Node → JVal → Node
  | .mk id pid value ty o ro p _ dash oldValue n, f' =>
      .mk id pid value ty o ro p f' dash oldValue n

/-- Replace the children array. -/
def Node.withChildren : Node → List Node → Node
  | .mk id pid value ty o ro p funNr dash oldValue _, n' =>
      .mk id pid value ty o ro p funNr dash oldValue n'

/-- The null `JsonObject`: every field reads as null/empty. -/
def nullVar : Node := .mk "" "" .null "" .null false .null .null .null .null []

/-- One natively-typed storage object a bound pointer can refer to: a resizable
sequence (`std::vector<...>`) or a scalar, per recognized type tag. -/
inductive NativeObj where
  | vu8 (xs : List Nat)
  | vu16 (xs : List Nat)
  | vb3 (xs : List Nat)
  | vstr (xs : List String)
  | vc3 (xs : List Coord3D)
  | su8 (v : Nat)
  | su16 (v : Nat)
  | sb3 (v : Nat)
  | sc3 (v : Coord3D)

/-- Native memory, addressed by the integer pointer values stored in `var["p"]`.
The C++ code reinterprets raw addresses; we model only well-typed targets. -/
def Heap := Int → Option NativeObj

/-- Store a native object at a pointer. -/
def Heap.write (h : Heap) (ptr : Int) (v : NativeObj) : Heap :=
  fun q => if q = ptr then some v else h q

/-- The `while (rowNr >= size) push_back(sentinel)` growth loop of
`Variable::triggerEvent`'s onChange pointer block. -/
def padWhile (sent : α) (rowNr : Nat) (xs : List α) : List α :=
  if xs.length ≤ rowNr then padWhile sent rowNr (xs ++ [sent]) else xs
  termination_by rowNr + 1 - xs.length
  decreasing_by simp; omega

/-- Row-array pointer write of `Variable::triggerEvent` (onChange, value is an
array, pointer is a single reference): grow the native vector to cover `rowNr`,
padding with the type's sentinel, then set slot `rowNr`.  An address whose
native object does not match the type tag would be reinterpreted by the C++
cast; such ill-typed states are left unchanged (not representable). -/
def pointerSyncArr (ty : String) (rowNr : Nat) (value : JVal) (objv : NativeObj) :
    NativeObj :=
  if ty = "select" ∨ ty = "range" ∨ ty = "pin" then
    match objv with
    | .vu8 xs => .vu8 ((padWhile 255 rowNr xs).set rowNr value.asU8)
    | v => v
  else if ty = "number" then
    match objv with
    | .vu16 xs => .vu16 ((padWhile 65535 rowNr xs).set rowNr value.asU16)
    | v => v
  else if ty = "checkbox" then
    match objv with
    | .vb3 xs => .vb3 ((padWhile 255 rowNr xs).set rowNr value.asBool3)
    | v => v
  else if ty = "text" ∨ ty = "fileEdit" then
    match objv with
    | .vstr xs => .vstr ((padWhile "" rowNr xs).set rowNr value.asCStr)
    | v => v
  else if ty = "coord3D" then
    match objv with
    | .vc3 xs => .vc3 ((padWhile (⟨-1, -1, -1⟩ : Coord3D) rowNr xs).set rowNr value.asCoord3D)
    | v => v
  else objv

/-- Scalar pointer write of `Variable::triggerEvent` (onChange, "no array"
branch): `*valuePointer = value`.  The "text" tag is not handled here (that
branch is commented out in the source). -/
def pointerSyncScalar (ty : String) (value : JVal) (objv : NativeObj) : NativeObj :=
  if ty = "select" ∨ ty = "range" ∨ ty = "pin" then
    match objv with
    | .su8 _ => .su8 value.asU8
    | v => v
  else if ty = "number" then
    match objv with
    | .su16 _ => .su16 value.asU16
    | v => v
  else if ty = "checkbox" then
    match objv with
    | .sb3 _ => .sb3 value.asBool3
    | v => v
  else if ty = "coord3D" then
    match objv with
    | .sc3 _ => .sc3 value.asCoord3D
    | v => v
  else objv

/-- The onChange pointer-synchronization block of `Variable::triggerEvent`
(entered when `var["p"]` is not null).  `Variable::value()` and
`Variable::value(rowNr)` (accessors in the header, not under src/) read
`var["value"]` resp. `var["value"][rowNr]`. -/
def pointerSync (var : Node) (rowNr : Nat) (h : Heap) : Heap :=
  let value := if rowNr = 255 then var.value else var.value.index rowNr
  let isPointerArray := var.p.isArr
  let pointer : Int := if isPointerArray then (var.p.index rowNr).asInt else var.p.asInt
  if pointer ≠ 0 then
    if var.value.isArr ∧ ¬isPointerArray then
      if rowNr ≠ 255 then
        match h pointer with
        | some objv => h.write pointer (pointerSyncArr var.type rowNr value objv)
        | none => h
      else h
    else
      match h pointer with
      | some objv => h.write pointer (pointerSyncScalar var.type value objv)
      | none => h
  else h

/-- An entry of the process-wide handler table `mdl->varEvents`; handlers are
invoked with `(variable, rowNr, eventType)` and return the effect-applied flag.
Handler side effects on the tree are outside the modelled state. -/
def Handler := Node → Nat → Nat → Bool

/-- The environment: the global handler table. -/
structure Env where
  varEvents : List Handler

/-- Event kinds.  Modelled from the spec: the enum lives in a header not under
src/; only distinctness of the six kinds matters to the code under src/. -/
def onSetValue : Nat := 0

def onUI : Nat := 1

def onChange : Nat := 2

def onAdd : Nat := 3

def onDelete : Nat := 4

def onLoop1s : Nat := 5

/-- The mutable state `Variable::triggerEvent` acts on: the downstream
change-notification queue (`instances->changedVarsQueue`), native memory, and
the staged response rows (`responseObject["onAdd"/"onDelete"]["rowNr"]`).
`handlerCalls` instruments which handler-table entries were invoked, recording
`(funNr, eventType)`; the source has no such field. -/
structure TState where
  changedVarsQueue : List Node
  heap : Heap
  onAddRowNr : Option Nat
  onDeleteRowNr : Option Nat
  handlerCalls : List (Nat × Nat)

/-- The handler-invocation block of `Variable::triggerEvent`: if `var["fun"]`
is present and within the bounds of `mdl->varEvents`, invoke it; out-of-bounds
indices only log.  The result printing in the source has no modelled effect. -/
def handlerStep (env : Env) (st : TState) (var : Node) (eventType rowNr : Nat) :
    TState × Bool :=
  if ¬var.funNr.isNull then
    let funNr := var.funNr.asSizeT
    if h : funNr < env.varEvents.length then
      let result := (env.varEvents.get ⟨funNr, h⟩) var rowNr eventType
      ({ st with handlerCalls := st.handlerCalls ++ [(funNr, eventType)] }, result)
    else (st, false)
  else (st, false)

/-- The per-column native erase of the onDelete block: erase slot `rowNr` when
it is within the vector's length. -/
def eraseRowTyped (ty : String) (rowNr : Nat) (objv : NativeObj) : NativeObj :=
  if ty = "select" ∨ ty = "range" ∨ ty = "pin" then
    match objv with
    | .vu8 xs => .vu8 (if rowNr < xs.length then xs.eraseIdx rowNr else xs)
    | v => v
  else if ty = "number" then
    match objv with
    | .vu16 xs => .vu16 (if rowNr < xs.length then xs.eraseIdx rowNr else xs)
    | v => v
  else if ty = "checkbox" then
    match objv with
    | .vb3 xs => .vb3 (if rowNr < xs.length then xs.eraseIdx rowNr else xs)
    | v => v
  else if ty = "text" ∨ ty = "fileEdit" then
    match objv with
    | .vstr xs => .vstr (if rowNr < xs.length then xs.eraseIdx rowNr else xs)
    | v => v
  else if ty = "coord3D" then
    match objv with
    | .vc3 xs => .vc3 (if rowNr < xs.length then xs.eraseIdx rowNr else xs)
    | v => v
  else objv

/-- The pointer each table column resolves for row `rowNr` in the onDelete
block: `childVar["p"][rowNr]` when the "p" field is itself an array, else
`childVar["p"]`. -/
def colPointer (rowNr : Nat) (childVar : Node) : Int :=
  if childVar.p.isArr then (childVar.p.index rowNr).asInt else childVar.p.asInt

/-- One column's native erase in the onDelete block (skipped for a zero
pointer). -/
def deleteChildPointer (rowNr : Nat) (h : Heap) (childVar : Node) : Heap :=
  let pointer := colPointer rowNr childVar
  if pointer ≠ 0 then
    match h pointer with
    | some objv => h.write pointer (eraseRowTyped childVar.type rowNr objv)
    | none => h
  else h

/-- The onDelete cascade of `Variable::triggerEvent`: for every child column,
erase the bound native slot at `rowNr`. -/
def deleteCascade (var : Node) (rowNr : Nat) (h : Heap) : Heap :=
  var.children.foldl (fun h c => deleteChildPointer rowNr h c) h

/-- Steps 1-4 of `Variable::triggerEvent` (everything except the final
read-only onUI recursion): the onChange queue push (only when `var["dash"]` is
present) and pointer synchronization, the handler invocation, and the
onAdd/onDelete staging with the delete cascade. -/
def triggerEventCore (env : Env) (st : TState) (var : Node)
    (eventType rowNr : Nat) (init : Bool) : TState × Bool :=
  let st :=
    if eventType = onChange then
      let st :=
        if ¬init ∧ ¬var.dash.isNull then
          { st with changedVarsQueue := st.changedVarsQueue ++ [var] }
        else st
      if ¬var.p.isNull then { st with heap := pointerSync var rowNr st.heap } else st
    else st
  let hs := handlerStep env st var eventType rowNr
  let st := hs.1
  let st :=
    if eventType = onAdd ∨ eventType = onDelete then
      let st := if eventType = onDelete then { st with heap := deleteCascade var rowNr st.heap } else st
      if eventType = onAdd then { st with onAddRowNr := some rowNr }
      else { st with onDeleteRowNr := some rowNr }
    else st
  (st, hs.2)

/-- `Variable::triggerEvent`.  Step 5: for read-only vars an onUI event
recursively triggers `onSetValue` for the same row (with the header's default
`init = false`); since onSetValue ≠ onUI the recursive call's own step 5 cannot
fire, so it is expanded to the core. -/
def triggerEvent (env : Env) (st : TState) (var : Node)
    (eventType rowNr : Nat) (init : Bool) : TState × Bool :=
  let r1 := triggerEventCore env st var eventType rowNr init
  if eventType = onUI ∧ var.ro then
    ((triggerEventCore env r1.1 var onSetValue rowNr false).1, r1.2)
  else r1

/-- `Variable::preDetails`: for all direct children ("controls"), a child whose
order reads non-negative gets its order negated. -/
def preDetails (var : Node) : Node :=
  var.withChildren (var.children.map fun c =>
    if 0 ≤ c.order then c.setO (.i (-c.order)) else c)

/-- `SysModModel::cleanUpModel`'s traversal over one children array, with the
removal logic inlined.  `showObsolete` stands for the repeated
`mdl->getValue("Model", "showObsolete")` lookup; `parentIsInstances` for
`parent.var["id"] == "instances"`.  A var removed from the array is detached
and the source's further processing of it (value strip / recursion) cannot
affect the remaining tree. -/
def cleanUpList (showObsolete oPos ro : Bool) (parentIsInstances : Bool) :
    List Node → List Node
  | [] => []
  | .mk id pid value ty o vro p funNr dash oldValue n :: rest =>
    if ¬ro ∧ (if oPos then (o.isNull ∨ 0 ≤ o.asInt) ∧ ¬showObsolete
              else o.isNull ∨ o.asInt < 0) then
      cleanUpList showObsolete oPos ro parentIsInstances rest
    else
      let o' := if ¬ro ∧ oPos ∧ ¬(o.isNull ∨ 0 ≤ o.asInt) then JVal.i (-o.asInt) else o
      let value' := if ro ∧ (parentIsInstances ∨ vro) then JVal.null else value
      Node.mk id pid value' ty o' vro p funNr dash oldValue
          (cleanUpList showObsolete oPos ro (id = "instances") n) ::
        cleanUpList showObsolete oPos ro parentIsInstances rest

/-- The terminal sweep `cleanUpModel()` run once after all subsystems have
declared (loop20ms, guarded by `cleanUpModelDone`).  Modelled from the spec and
the code's own comments: the call's default arguments are declared in
SysModModel.h, which is not under src/.  The declaration pass (`initVar`)
marks each declared node's order negative — the oPos branch's comment reads
"not set negative in initVar" — so the after-declarations default is
`oPos = true`: nodes not so marked (order field absent or non-negative) are
obsolete and removed unless showObsolete suppresses removal for inspection,
and the marked (negative) orders are flipped back positive ("make it
possitive"); `ro = false`, null parent. -/
def cleanUpModelTerminal (showObsolete : Bool) (model : List Node) : List Node :=
  cleanUpList showObsolete true false false model

/-- Spec-side terminal sweep for comparison (C1): a node whose order field is
present and negative (marked by the declaration pass) is kept with its order
flipped positive; any other node is obsolete — removed, unless showObsolete is
set, in which case it is kept unchanged; children are swept recursively. -/
def specSweepTerminal (showObsolete : Bool) : List Node → List Node
  | [] => []
  | .mk id pid value ty o vro p funNr dash oldValue n :: rest =>
    if ¬o.isNull ∧ o.asInt < 0 then
      Node.mk id pid value ty (.i (-o.asInt)) vro p funNr dash oldValue
          (specSweepTerminal showObsolete n) ::
        specSweepTerminal showObsolete rest
    else if showObsolete then
      Node.mk id pid value ty o vro p funNr dash oldValue
          (specSweepTerminal showObsolete n) ::
        specSweepTerminal showObsolete rest
    else specSweepTerminal showObsolete rest

/-- All nodes of a forest, at every depth. -/
def flattenNodes : List Node → List Node
  | [] => []
  | v@(.mk _ _ _ _ _ _ _ _ _ _ n) :: rest =>
    v :: (flattenNodes n ++ flattenNodes rest)

/-- `Variable::valArray()` (accessor in the header, not under src/):
`var["value"]` as a `JsonArray`, empty when the value is not an array. -/
def valArray (var : Node) : List JVal := var.value.asArr

/-- The row loop of `Variable::rows`: one visitor invocation per element of the
first child's value array, row numbers ascending from 0.  The visitor threads a
state `σ` (the source visitor is an arbitrary closure). -/
def rowsGo (var : Node) (f : Node → Nat → σ → σ) : Nat → List JVal → σ → σ
  | _, [], s => s
  | rowNr, _ :: restRows, s => rowsGo var f (rowNr + 1) restRows (f var rowNr s)

/-- `Variable::rows`: takes `children()[0]` (the null object when there are no
children) and iterates its value array. -/
def rows (var : Node) (f : Node → Nat → σ → σ) (s : σ) : σ :=
  rowsGo var f 0 (valArray (var.children.getD 0 nullVar)) s

/-- The visitor-call trace of `Variable::rows`. -/
def rowsTrace (var : Node) : List (Node × Nat) :=
  rows var (fun v r acc => acc ++ [(v, r)]) []

/-- Spec-side row count for comparison (C8): the value-array length of the
first child that has an array value. -/
def specRowCount (var : Node) : Nat :=
  match var.children.find? (fun c => c.value.isArr) with
  | some c => c.value.asArr.length
  | none => 0

/-- The child loop of `Variable::removeValuesForRow`: a child whose value is an
array has row `rowNr` erased from it and is then recursed into
(`JsonArray::remove` past the end is a no-op); other children are untouched. -/
def removeValuesForRowList (rowNr : Nat) : List Node → List Node
  | [] => []
  | .mk cid cpid cvalue cty co cro cp cfunNr cdash coldValue cn :: rest =>
    (match cvalue with
     | .arr xs =>
       Node.mk cid cpid (.arr (xs.eraseIdx rowNr)) cty co cro cp cfunNr cdash coldValue
         (removeValuesForRowList rowNr cn)
     | v => Node.mk cid cpid v cty co cro cp cfunNr cdash coldValue cn) ::
      removeValuesForRowList rowNr rest

/-- `Variable::removeValuesForRow`. -/
def removeValuesForRow (rowNr : Nat) (var : Node) : Node :=
  var.withChildren (removeValuesForRowList rowNr var.children)

mutual

/-- `Variable::findOptionsTextRec`: recursive positional search over a
(possibly grouped) options structure.  Returns the updated visit counter
(`*startValue`, a `uint8_t`, hence the mod-256 increment) and, on success, the
`(groupName, optionName)` the source writes through its out-pointers.  An
object recurses with the master-level group name
(`parentGroup.isNull() ? pair.key() : parentGroup`). -/
def findOptionsTextRec (options : JVal) (startValue value : Nat)
    (parentGroup : Option String) : Nat × Option (Option String × Option String) :=
  match options with
  | .arr xs => findOptionsTextRecArr xs startValue value parentGroup
  | .obj xs => findOptionsTextRecObj xs startValue value parentGroup
  | v =>
    if startValue = value then (startValue, some (parentGroup, v.asJsonString))
    else ((startValue + 1) % 256, none)

/-- The array loop of `Variable::findOptionsTextRec`: first hit wins. -/
def findOptionsTextRecArr (xs : List JVal) (startValue value : Nat)
    (parentGroup : Option String) : Nat × Option (Option String × Option String) :=
  match xs with
  | [] => (startValue, none)
  | x :: rest =>
    match findOptionsTextRec x startValue value parentGroup with
    | (sv, some res) => (sv, some res)
    | (sv, none) => findOptionsTextRecArr rest sv value parentGroup

/-- The object loop of `Variable::findOptionsTextRec`. -/
def findOptionsTextRecObj (xs : List (String × JVal)) (startValue value : Nat)
    (parentGroup : Option String) : Nat × Option (Option String × Option String) :=
  match xs with
  | [] => (startValue, none)
  | (k, v) :: rest =>
    match findOptionsTextRec v startValue value (some (parentGroup.getD k)) with
    | (sv, some res) => (sv, some res)
    | (sv, none) => findOptionsTextRecObj rest sv value parentGroup

end

/-- `Variable::findOptionsText` reduced to its lookup content: run the
recursive search from counter 0 with a null group, then copy the two
`JsonString`s into the out buffers (`strlcpy` of a null `JsonString` is
modelled as the empty string); on failure both stay null, hence empty.  The
`getOptions`/`clearOptions` response bookkeeping around the search only
rebuilds the `options` argument and is not part of the lookup. -/
def findOptionsText (options : JVal) (value : Nat) : String × String :=
  match (findOptionsTextRec options 0 value none).2 with
  | some (g, t) => (g.getD "", t.getD "")
  | none => ("", "")

mutual

/-- Spec-side flattening for comparison (C9): the individual options of a
grouped options structure in visit order, each with its owning top-level group
name and display text. -/
def flattenOptions (options : JVal) (parentGroup : Option String) :
    List (Option String × Option String) :=
  match options with
  | .arr xs => flattenOptionsArr xs parentGroup
  | .obj xs => flattenOptionsObj xs parentGroup
  | v => [(parentGroup, v.asJsonString)]

/-- Array part of `flattenOptions`. -/
def flattenOptionsArr (xs : List JVal) (parentGroup : Option String) :
    List (Option String × Option String) :=
  match xs with
  | [] => []
  | x :: rest => flattenOptions x parentGroup ++ flattenOptionsArr rest parentGroup

/-- Object part of `flattenOptions`. -/
def flattenOptionsObj (xs : List (String × JVal)) (parentGroup : Option String) :
    List (Option String × Option String) :=
  match xs with
  | [] => []
  | (k, v) :: rest =>
    flattenOptions v (some (parentGroup.getD k)) ++ flattenOptionsObj rest parentGroup

end

/-- `Variable::getValue`.  `getValueRowNr` is the process-wide default row
context `mdl->getValueRowNr`. -/
def getValue (getValueRowNr : Nat) (var : Node) (rowNr : Nat) : JVal :=
  if var.value.isArr then
    let valueArray := var.value.asArr
    let rowNr1 := if rowNr = 255 then getValueRowNr else rowNr
    if rowNr1 ≠ 255 ∧ rowNr1 < valueArray.length then valueArray.getD rowNr1 .null
    else if valueArray.length ≠ 0 then valueArray.getD 0 .null
    else .null
  else var.value

/-- The JSON fields of one var, as ArduinoJson would see them (children
aside). -/
def nodeFields : Node → List (String × JVal)
  | .mk id pid value ty o ro p funNr dash oldValue _ =>
    [("id", .s id), ("pid", .s pid), ("value", value), ("type", .s ty), ("o", o),
     ("ro", .b ro), ("p", p), ("fun", funNr), ("dash", dash), ("oldValue", oldValue)]

/-- The default exclusion set of the persisted snapshot, exactly the
`starJson.addExclusion` calls of `SysModModel::loop20ms`. -/
def defaultExclusions : List String := ["fun", "dash", "o", "p", "oldValue"]

/-- Modelled from the spec: `StarJson::writeJsonDocToFile` (SysStarJson.h, not
under src/) writes the ordered node sequence with the caller-supplied exclusion
set applied before writing, i.e. it drops every excluded key from every node. -/
def serializeList (excl : List String) : List Node → List JVal
  | [] => []
  | v@(.mk _ _ _ _ _ _ _ _ _ _ n) :: rest =>
    JVal.obj ((nodeFields v).filter (fun kv => ¬excl.contains kv.1) ++
        [("n", JVal.arr (serializeList excl n))]) ::
      serializeList excl rest

/-- One node of the persisted snapshot. -/
def serializeNode (excl : List String) (var : Node) : JVal :=
  (serializeList excl [var]).headD .null

/-- The keys of a JSON object. -/
def jKeys : JVal → List String
  | .obj xs => xs.map Prod.fst
  | _ => []

/-- Key lookup distinguishing absence from a stored null. -/
def jGet (v : JVal) (k : String) : Option JVal :=
  match v with
  | .obj xs => (xs.find? (fun kv => kv.1 = k)).map Prod.snd
  | _ => none

/-- The effective row index of `Variable::getValue`: the no-row sentinel is
replaced by the process-wide default row context. -/
def effRow (getValueRowNr rowNr : Nat) : Nat :=
  if rowNr = 255 then getValueRowNr else rowNr

/-- An empty handler table. -/
def env0 : Env := ⟨[]⟩

/-- An empty dispatch state over empty native memory. -/
def st0 : TState := ⟨[], fun _ => none, none, none, []⟩

/-- A stale var: order present and positive (not re-marked negative by the
declaration pass). -/
def cexStale : Node := .mk "stale" "m" (.i 1) "number" (.i 5) false .null .null .null .null []

/-- A freshly declared var: `initVar` left its order negative. -/
def cexDeclared : Node := .mk "fresh" "m" (.i 2) "number" (.i (-3)) false .null .null .null .null []

/-- A grandchild with positive order, under a child with order 0. -/
def cexGrandchild : Node := .mk "g" "c0" (.i 1) "number" (.i 5) false .null .null .null .null []

/-- A child whose order is 0. -/
def cexChild0 : Node := .mk "c0" "t" (.i 0) "number" (.i 0) false .null .null .null .null [cexGrandchild]

/-- A parent for `preDetails` whose child has order 0 and whose grandchild has
order 5. -/
def cexPre : Node := .mk "t" "m" .null "" (.i 1) false .null .null .null .null [cexChild0]

/-- A parent whose single child has order 4. -/
def w2Var : Node :=
  .mk "t2" "m" .null "" (.i 1) false .null .null .null .null
    [.mk "c" "t2" (.i 9) "number" (.i 4) false .null .null .null .null []]

/-- A numeric column bound to pointer 7, with a value array whose row 3 is 42. -/
def w3Var : Node :=
  .mk "col" "tbl" (.arr [.i 1, .i 2, .i 3, .i 42]) "number" (.i 2) false (.i 7) .null .null .null []

/-- Native memory holding an initially empty `std::vector<uint16_t>` at
pointer 7. -/
def w3St : TState := ⟨[], fun q => if q = 7 then some (.vu16 []) else none, none, none, []⟩

/-- A 3-row table with two bound columns: a numeric column at pointer 1 and a
select column at pointer 2. -/
def w4Table : Node :=
  .mk "tbl" "m" .null "" (.i 1) false .null .null .null .null
    [.mk "colA" "tbl" (.arr [.i 10, .i 11, .i 12]) "number" (.i 2) false (.i 1) .null .null .null [],
     .mk "colB" "tbl" (.arr [.i 20, .i 21, .i 22]) "select" (.i 3) false (.i 2) .null .null .null []]

/-- Native memory for the 3-row table: both columns' vectors hold 3 rows. -/
def w4St : TState :=
  ⟨[], fun q => if q = 1 then some (.vu16 [10, 11, 12])
        else if q = 2 then some (.vu8 [20, 21, 22]) else none, none, none, []⟩

/-- A var with no "dash" field (change notification not requested). -/
def varNoDash : Node := .mk "bri" "Fixture" (.i 128) "range" (.i 3) false .null .null .null .null []

/-- A var whose "fun" handler index is 0 (out of bounds for the empty handler
table `env0`). -/
def w7Var : Node := .mk "fx" "Fixture" (.i 2) "select" (.i 4) false .null (.i 0) .null .null []

/-- A table whose first child's value is a scalar and whose second child holds
a 3-element value array. -/
def cex8 : Node :=
  .mk "tbl8" "m" .null "" (.i 1) false .null .null .null .null
    [.mk "desc" "tbl8" (.s "x") "text" (.i 1) false .null .null .null .null [],
     .mk "col" "tbl8" (.arr [.i 1, .i 2, .i 3]) "number" (.i 2) false .null .null .null .null []]

/-- A grouped options structure: group "G1" with options "a", "b"; group "G2"
with option "c". -/
def w9Options : JVal :=
  .obj [("G1", .arr [.s "a", .s "b"]), ("G2", .arr [.s "c"])]

/-- A var holding a two-row value array. -/
def w10Var : Node := .mk "v10" "m" (.arr [.i 10, .i 20]) "number" (.i 1) false .null .null .null .null []

theorem Node.order_setO (v : Node) (k : Int) : (v.setO (.i k)).order = k := by
  cases v; rfl

theorem Node.children_setO (v : Node) (x : JVal) : (v.setO x).children = v.children := by
  cases v; rfl

theorem preDetails_children (var : Node) :
    (preDetails var).children =
      var.children.map (fun c => if 0 ≤ c.order then c.setO (.i (-c.order)) else c) := by
  cases var; rfl

theorem handlerStep_queue (env : Env) (st : TState) (var : Node) (e r : Nat) :
    (handlerStep env st var e r).1.changedVarsQueue = st.changedVarsQueue := by
  simp only [handlerStep]
  by_cases h1 : var.funNr.isNull
  · simp [h1]
  · by_cases h2 : var.funNr.asSizeT < env.varEvents.length
    · simp [h1, h2]
    · simp [h1, h2]

theorem handlerStep_heap (env : Env) (st : TState) (var : Node) (e r : Nat) :
    (handlerStep env st var e r).1.heap = st.heap := by
  simp only [handlerStep]
  by_cases h1 : var.funNr.isNull
  · simp [h1]
  · by_cases h2 : var.funNr.asSizeT < env.varEvents.length
    · simp [h1, h2]
    · simp [h1, h2]

theorem handlerStep_onAddRowNr (env : Env) (st : TState) (var : Node) (e r : Nat) :
    (handlerStep env st var e r).1.onAddRowNr = st.onAddRowNr := by
  simp only [handlerStep]
  by_cases h1 : var.funNr.isNull
  · simp [h1]
  · by_cases h2 : var.funNr.asSizeT < env.varEvents.length
    · simp [h1, h2]
    · simp [h1, h2]

theorem handlerStep_onDeleteRowNr (env : Env) (st : TState) (var : Node) (e r : Nat) :
    (handlerStep env st var e r).1.onDeleteRowNr = st.onDeleteRowNr := by
  simp only [handlerStep]
  by_cases h1 : var.funNr.isNull
  · simp [h1]
  · by_cases h2 : var.funNr.asSizeT < env.varEvents.length
    · simp [h1, h2]
    · simp [h1, h2]

theorem triggerEventCore_heap (env : Env) (st : TState) (var : Node) (e r : Nat)
    (init : Bool) :
    (triggerEventCore env st var e r init).1.heap =
      if e = onChange ∧ ¬var.p.isNull then pointerSync var r st.heap
      else if e = onDelete then deleteCascade var r st.heap
      else st.heap := by
  by_cases hC : e = onChange
  · subst hC
    simp [triggerEventCore, onChange, onAdd, onDelete, handlerStep_heap,
      apply_ite TState.heap]
  · by_cases hD : e = onDelete
    · subst hD
      simp [triggerEventCore, onChange, onAdd, onDelete, handlerStep_heap,
        apply_ite TState.heap]
    · by_cases hA : e = onAdd
      · subst hA
        simp [triggerEventCore, onChange, onAdd, onDelete, handlerStep_heap,
          apply_ite TState.heap]
      · simp [triggerEventCore, hC, hD, hA, handlerStep_heap, apply_ite TState.heap]

theorem triggerEventCore_queue (env : Env) (st : TState) (var : Node) (e r : Nat)
    (init : Bool) :
    (triggerEventCore env st var e r init).1.changedVarsQueue =
      if e = onChange ∧ ¬init ∧ ¬var.dash.isNull then st.changedVarsQueue ++ [var]
      else st.changedVarsQueue := by
  by_cases hC : e = onChange
  · subst hC
    by_cases hi : init <;> by_cases hd : var.dash.isNull <;>
      simp [triggerEventCore, onChange, onAdd, onDelete, hi, hd, handlerStep_queue,
        apply_ite TState.changedVarsQueue]
  · by_cases hD : e = onDelete
    · subst hD
      simp [triggerEventCore, onChange, onAdd, onDelete, handlerStep_queue,
        apply_ite TState.changedVarsQueue]
    · by_cases hA : e = onAdd
      · subst hA
        simp [triggerEventCore, onChange, onAdd, onDelete, handlerStep_queue,
          apply_ite TState.changedVarsQueue]
      · simp [triggerEventCore, hC, hD, hA, handlerStep_queue,
          apply_ite TState.changedVarsQueue]

theorem triggerEventCore_onDeleteRowNr (env : Env) (st : TState) (var : Node) (e r : Nat)
    (init : Bool) :
    (triggerEventCore env st var e r init).1.onDeleteRowNr =
      if e = onDelete then some r else st.onDeleteRowNr := by
  by_cases hC : e = onChange
  · subst hC
    simp [triggerEventCore, onChange, onAdd, onDelete, handlerStep_onDeleteRowNr,
      apply_ite TState.onDeleteRowNr]
  · by_cases hD : e = onDelete
    · subst hD
      simp [triggerEventCore, onChange, onAdd, onDelete, handlerStep_onDeleteRowNr,
        apply_ite TState.onDeleteRowNr]
    · by_cases hA : e = onAdd
      · subst hA
        simp [triggerEventCore, onChange, onAdd, onDelete, handlerStep_onDeleteRowNr,
          apply_ite TState.onDeleteRowNr]
      · simp [triggerEventCore, hC, hD, hA, handlerStep_onDeleteRowNr,
          apply_ite TState.onDeleteRowNr]

theorem triggerEvent_heap (env : Env) (st : TState) (var : Node) (e r : Nat) (init : Bool) :
    (triggerEvent env st var e r init).1.heap =
      if e = onChange ∧ ¬var.p.isNull then pointerSync var r st.heap
      else if e = onDelete then deleteCascade var r st.heap
      else st.heap := by
  simp only [triggerEvent]
  by_cases hU : e = onUI ∧ var.ro
  · rw [if_pos hU]
    obtain ⟨hU1, _⟩ := hU
    subst hU1
    rw [triggerEventCore_heap, triggerEventCore_heap]
    simp [onUI, onChange, onDelete, onSetValue]
  · rw [if_neg hU]
    exact triggerEventCore_heap env st var e r init

theorem triggerEvent_queue (env : Env) (st : TState) (var : Node) (e r : Nat) (init : Bool) :
    (triggerEvent env st var e r init).1.changedVarsQueue =
      if e = onChange ∧ ¬init ∧ ¬var.dash.isNull then st.changedVarsQueue ++ [var]
      else st.changedVarsQueue := by
  simp only [triggerEvent]
  by_cases hU : e = onUI ∧ var.ro
  · rw [if_pos hU]
    obtain ⟨hU1, _⟩ := hU
    subst hU1
    rw [triggerEventCore_queue, triggerEventCore_queue]
    simp [onUI, onChange, onSetValue]
  · rw [if_neg hU]
    exact triggerEventCore_queue env st var e r init

theorem triggerEvent_onDeleteRowNr (env : Env) (st : TState) (var : Node) (e r : Nat)
    (init : Bool) :
    (triggerEvent env st var e r init).1.onDeleteRowNr =
      if e = onDelete then some r else st.onDeleteRowNr := by
  simp only [triggerEvent]
  by_cases hU : e = onUI ∧ var.ro
  · rw [if_pos hU]
    obtain ⟨hU1, _⟩ := hU
    subst hU1
    rw [triggerEventCore_onDeleteRowNr, triggerEventCore_onDeleteRowNr]
    simp [onUI, onDelete, onSetValue]
  · rw [if_neg hU]
    exact triggerEventCore_onDeleteRowNr env st var e r init

theorem triggerEventCore_onAddRowNr (env : Env) (st : TState) (var : Node) (e r : Nat)
    (init : Bool) :
    (triggerEventCore env st var e r init).1.onAddRowNr =
      if e = onAdd then some r else st.onAddRowNr := by
  by_cases hC : e = onChange
  · subst hC
    simp [triggerEventCore, onChange, onAdd, onDelete, handlerStep_onAddRowNr,
      apply_ite TState.onAddRowNr]
  · by_cases hD : e = onDelete
    · subst hD
      simp [triggerEventCore, onChange, onAdd, onDelete, handlerStep_onAddRowNr,
        apply_ite TState.onAddRowNr]
    · by_cases hA : e = onAdd
      · subst hA
        simp [triggerEventCore, onChange, onAdd, onDelete, handlerStep_onAddRowNr,
          apply_ite TState.onAddRowNr]
      · simp [triggerEventCore, hC, hD, hA, handlerStep_onAddRowNr,
          apply_ite TState.onAddRowNr]

theorem triggerEvent_onAddRowNr (env : Env) (st : TState) (var : Node) (e r : Nat)
    (init : Bool) :
    (triggerEvent env st var e r init).1.onAddRowNr =
      if e = onAdd then some r else st.onAddRowNr := by
  simp only [triggerEvent]
  by_cases hU : e = onUI ∧ var.ro
  · rw [if_pos hU]
    obtain ⟨hU1, _⟩ := hU
    subst hU1
    rw [triggerEventCore_onAddRowNr, triggerEventCore_onAddRowNr]
    simp [onUI, onAdd, onSetValue]
  · rw [if_neg hU]
    exact triggerEventCore_onAddRowNr env st var e r init

/-- C2 (counterexample): the claim says `preDetails` leaves every node under
the parent with a negative order whenever its order was non-negative; on
`cexPre` the direct child with order 0 still has the non-negative order 0
afterwards, and the grandchild keeps its untouched positive order 5 —
`preDetails` only negates direct children, and negating 0 yields 0. -/
theorem c2_counterexample :
    ((preDetails cexPre).children.getD 0 nullVar).order = 0 ∧
    (((preDetails cexPre).children.getD 0 nullVar).children.getD 0 nullVar).order = 5 :=
  ⟨rfl, rfl⟩

/-- C2 (amended): `preDetails` negates the order of each direct child whose
order is non-negative and leaves deeper descendants untouched; afterwards
every direct child that had a strictly positive order has a negative order
(a child with order 0 keeps order 0, and negative orders are unchanged). -/
theorem c2_pre_details (var : Node) (i : Nat) (h : i < var.children.length) :
    ((preDetails var).children.length = var.children.length) ∧
    (0 ≤ var.children[i].order →
      ((preDetails var).children.getD i nullVar).order = -var.children[i].order) ∧
    (0 < var.children[i].order →
      ((preDetails var).children.getD i nullVar).order < 0) ∧
    (var.children[i].order < 0 →
      (preDetails var).children.getD i nullVar = var.children[i]) ∧
    ((preDetails var).children.getD i nullVar).children = var.children[i].children := by
  have hc := preDetails_children var
  have hlen : (preDetails var).children.length = var.children.length := by
    rw [hc]; simp
  have hi' : i < (preDetails var).children.length := by omega
  have hget : (preDetails var).children.getD i nullVar =
      if 0 ≤ var.children[i].order then
        var.children[i].setO (.i (-var.children[i].order))
      else var.children[i] := by
    rw [List.getD_eq_getElem _ _ hi']
    simp only [hc, List.getElem_map]
  refine ⟨hlen, ?_, ?_, ?_, ?_⟩
  · intro hord
    rw [hget, if_pos hord, Node.order_setO]
  · intro hord
    rw [hget, if_pos (le_of_lt hord), Node.order_setO]
    omega
  · intro hord
    rw [hget, if_neg (by omega)]
  · rw [hget]
    split_ifs with hord
    · exact Node.children_setO _ _
    · rfl

/-- C2 (witness): on `w2Var`, whose only child has order 4, the amended
theorem yields order -4 after `preDetails`. -/
theorem c2_pre_details_witness :
    ((preDetails w2Var).children.getD 0 nullVar).order = -4 := by
  have h := c2_pre_details w2Var 0 (by decide)
  simpa using h.2.1 (by decide)

/-- C6 (counterexample): the claim says every node is enqueued on the
change-notification queue by an onChange trigger with `init = false`; but
`varNoDash` has no "dash" field, and the queue stays empty. -/
theorem c6_counterexample :
    (triggerEvent env0 st0 varNoDash onChange 255 false).1.changedVarsQueue ≠
      st0.changedVarsQueue ++ [varNoDash] := by
  have h : (triggerEvent env0 st0 varNoDash onChange 255 false).1.changedVarsQueue = [] := rfl
  rw [h]
  simp [st0]

/-- C6 (amended): triggerEvent with kind onChange and `init = false` enqueues
the node on the downstream change-notification queue exactly when the node's
change-notification flag ("dash") is present; without it the queue is
unchanged. -/
theorem c6_change_queue (env : Env) (st : TState) (var : Node) (rowNr : Nat) :
    (triggerEvent env st var onChange rowNr false).1.changedVarsQueue =
      if var.dash.isNull then st.changedVarsQueue
      else st.changedVarsQueue ++ [var] := by
  rw [triggerEvent_queue]
  split_ifs <;> simp_all

theorem rowsGo_trace (var : Node) (xs : List JVal) :
    ∀ (k : Nat) (acc : List (Node × Nat)),
      rowsGo var (fun v r a => a ++ [(v, r)]) k xs acc =
        acc ++ (List.range xs.length).map (fun r => (var, k + r)) := by
  induction xs with
  | nil => intro k acc; simp [rowsGo]
  | cons x rest ih =>
    intro k acc
    rw [rowsGo, ih, List.length_cons, List.range_succ_eq_map]
    have hf : ∀ r : Nat, k + 1 + r = k + Nat.succ r := by omega
    simp [List.map_map, Function.comp, hf]

/-- C8 (counterexample): the claim says the number of visitor invocations
equals the value-array length of the first child that HAS an array value; on
`cex8` that child is the second one, with 3 rows, yet `rows` iterates
`children()[0]`, whose value is a scalar, so the visitor is never invoked. -/
theorem c8_counterexample : rowsTrace cex8 = [] ∧ specRowCount cex8 = 3 :=
  ⟨rfl, rfl⟩

/-- C8 (amended): `rows` invokes the visitor exactly once per row index, in
ascending order starting at 0, passing the table node and the row index, with
the number of invocations equal to the value-array length of the FIRST child
(zero when the first child's value is not an array or there are no
children). -/
theorem c8_rows (var : Node) :
    rowsTrace var =
      (List.range (valArray (var.children.getD 0 nullVar)).length).map
        (fun r => (var, r)) := by
  rw [rowsTrace, rows, rowsGo_trace]
  simp

/-- C10: on an array-valued node, `getValue` substitutes the process-wide
default row context for the no-row sentinel; an effective row (an actual row,
not the sentinel) within bounds returns the element at that index; otherwise a
non-empty array yields its first element; and (absent stored nulls) a null is
returned only for the empty array. -/
theorem c10_get_value (ctx rowNr : Nat) (var : Node) (xs : List JVal)
    (hv : var.value = JVal.arr xs) :
    (getValue ctx var 255 = getValue ctx var ctx) ∧
    (effRow ctx rowNr ≠ 255 → ∀ hr : effRow ctx rowNr < xs.length,
      getValue ctx var rowNr = xs[effRow ctx rowNr]) ∧
    (¬(effRow ctx rowNr ≠ 255 ∧ effRow ctx rowNr < xs.length) → xs ≠ [] →
      getValue ctx var rowNr = xs.getD 0 .null) ∧
    (xs = [] → getValue ctx var rowNr = .null) ∧
    (JVal.null ∉ xs → getValue ctx var rowNr = .null → xs = []) := by
  have key : ∀ rn : Nat, getValue ctx var rn =
      if effRow ctx rn ≠ 255 ∧ effRow ctx rn < xs.length then xs.getD (effRow ctx rn) .null
      else if xs.length ≠ 0 then xs.getD 0 .null
      else .null := by
    intro rn
    simp only [getValue, hv, JVal.isArr, JVal.asArr, effRow, if_true]
  refine ⟨?_, ?_, ?_, ?_, ?_⟩
  · rw [key 255, key ctx]
    simp [effRow]
  · intro h255 hr
    rw [key rowNr, if_pos ⟨h255, hr⟩]
    exact List.getD_eq_getElem xs .null hr
  · intro hcond hne
    rw [key rowNr, if_neg hcond,
      if_pos (fun h0 => hne (List.length_eq_zero.mp h0))]
  · intro he
    subst he
    rw [key rowNr]
    simp
  · intro hnn hnull
    by_contra hne
    have hlen : xs.length ≠ 0 := fun h0 => hne (List.length_eq_zero.mp h0)
    rw [key rowNr] at hnull
    by_cases hcond : effRow ctx rowNr ≠ 255 ∧ effRow ctx rowNr < xs.length
    · rw [if_pos hcond] at hnull
      rw [List.getD_eq_getElem xs .null hcond.2] at hnull
      exact hnn (hnull ▸ List.getElem_mem hcond.2)
    · rw [if_neg hcond, if_pos hlen] at hnull
      have h0 : 0 < xs.length := Nat.pos_of_ne_zero hlen
      rw [List.getD_eq_getElem xs .null h0] at hnull
      exact hnn (hnull ▸ List.getElem_mem h0)

/-- C10 (witness): on `w10Var` (value array `[10, 20]`), a sentinel read with
default row context 7 falls back to the first element. -/
theorem c10_get_value_witness : getValue 7 w10Var 255 = JVal.i 10 := by
  have h := (c10_get_value 7 255 w10Var [.i 10, .i 20] rfl).2.2.1
  simpa using h (by simp [effRow]) (by simp)

/-- C5: serializing a node with the default exclusion set drops exactly the
"fun", "dash", "o", "p" and "oldValue" fields (every other field, and the
children entry, survives), and preserves "id", "value" and "type" exactly.
The serializer itself is modelled from the spec (SysStarJson.h is not under
src/); the exclusion list is the one passed in `SysModModel::loop20ms`. -/
theorem c5_exclusions (var : Node) :
    jKeys (serializeNode defaultExclusions var) =
      ((nodeFields var).map Prod.fst).filter
        (fun k => ¬defaultExclusions.contains k) ++ ["n"] ∧
    jGet (serializeNode defaultExclusions var) "fun" = none ∧
    jGet (serializeNode defaultExclusions var) "dash" = none ∧
    jGet (serializeNode defaultExclusions var) "o" = none ∧
    jGet (serializeNode defaultExclusions var) "p" = none ∧
    jGet (serializeNode defaultExclusions var) "oldValue" = none ∧
    jGet (serializeNode defaultExclusions var) "id" = some (.s var.id) ∧
    jGet (serializeNode defaultExclusions var) "value" = some var.value ∧
    jGet (serializeNode defaultExclusions var) "type" = some (.s var.type) := by
  cases var
  refine ⟨?_, ?_, ?_, ?_, ?_, ?_, ?_, ?_, ?_⟩ <;>
    simp [serializeNode, serializeList, nodeFields, defaultExclusions, jKeys, jGet,
      List.find?, List.filter, Node.id, Node.value, Node.type]

theorem cleanUpList_eq_specSweepTerminal (showObs : Bool) :
    ∀ (l : List Node) (pI : Bool),
      cleanUpList showObs true false pI l = specSweepTerminal showObs l
  | [], pI => by simp [cleanUpList, specSweepTerminal]
  | .mk id pid value ty o vro p funNr dash oldValue n :: rest, pI => by
    have hn := cleanUpList_eq_specSweepTerminal showObs n (id = "instances")
    have hr := cleanUpList_eq_specSweepTerminal showObs rest pI
    by_cases hnull : o.isNull = true
    · have h0 : o.asInt = 0 := by cases o <;> simp_all [JVal.isNull, JVal.asInt]
      by_cases hso : showObs = true
      · subst hso
        simp only [cleanUpList, specSweepTerminal]
        simp [hnull, h0, hn, hr]
      · rw [Bool.not_eq_true] at hso
        subst hso
        simp only [cleanUpList, specSweepTerminal]
        simp [hnull, h0, hn, hr]
    · by_cases hneg : o.asInt < 0
      · simp only [cleanUpList, specSweepTerminal]
        simp [hnull, hneg, hn, hr, show ¬(0 ≤ o.asInt) from by omega]
      · have hge : 0 ≤ o.asInt := by omega
        by_cases hso : showObs = true
        · subst hso
          simp only [cleanUpList, specSweepTerminal]
          simp [hnull, hneg, hge, hn, hr]
        · rw [Bool.not_eq_true] at hso
          subst hso
          simp only [cleanUpList, specSweepTerminal]
          simp [hnull, hneg, hge, hn, hr]

theorem specSweepTerminal_suppressed : ∀ l : List Node,
    (flattenNodes (specSweepTerminal true l)).length = (flattenNodes l).length
  | [] => by simp [specSweepTerminal, flattenNodes]
  | .mk id pid value ty o vro p funNr dash oldValue n :: rest => by
    have hn := specSweepTerminal_suppressed n
    have hr := specSweepTerminal_suppressed rest
    by_cases hc : ¬o.isNull = true ∧ o.asInt < 0
    · rw [specSweepTerminal, if_pos hc]
      simp [flattenNodes, hn, hr]
    · rw [specSweepTerminal, if_neg hc, if_pos rfl]
      simp [flattenNodes, hn, hr]

theorem specSweepTerminal_order (showObs : Bool) : ∀ l : List Node,
    ∀ v ∈ flattenNodes (specSweepTerminal showObs l), 0 ≤ v.order
  | [] => by simp [specSweepTerminal, flattenNodes]
  | .mk id pid value ty o vro p funNr dash oldValue n :: rest => by
    intro v hv
    have hn := specSweepTerminal_order showObs n
    have hr := specSweepTerminal_order showObs rest
    by_cases hc : ¬o.isNull = true ∧ o.asInt < 0
    · obtain ⟨hc1, hc2⟩ := hc
      rw [specSweepTerminal, if_pos ⟨hc1, hc2⟩] at hv
      rw [flattenNodes] at hv
      rcases List.mem_cons.mp hv with hv | hv
      · subst hv
        show (0 : Int) ≤ -o.asInt
        omega
      · rcases List.mem_append.mp hv with hv | hv
        · exact hn v hv
        · exact hr v hv
    · rw [specSweepTerminal, if_neg hc] at hv
      by_cases hso : showObs = true
      · rw [if_pos hso] at hv
        rw [flattenNodes] at hv
        rcases List.mem_cons.mp hv with hv | hv
        · subst hv
          rcases not_and_or.mp hc with h | h
          · have hnull : o.isNull = true := not_not.mp h
            have h0 : o.asInt = 0 := by cases o <;> simp_all [JVal.isNull, JVal.asInt]
            simp [Node.order, Node.o, h0]
          · simp only [Node.order, Node.o]
            omega
        · rcases List.mem_append.mp hv with hv | hv
          · exact hn v hv
          · exact hr v hv
      · rw [if_neg hso] at hv
        exact hr v hv

/-- C1 (counterexample): the claim says the terminal sweep removes exactly the
nodes whose order field is absent or negative; but the declaration pass marks
declared nodes with NEGATIVE orders, and the sweep removes the opposite sign:
with showObsolete unset, `cexStale` (order 5, present and non-negative, so
outside the claim's removal set) is removed, while `cexDeclared` (order -3,
inside the claim's removal set) is kept, with its order flipped to +3. -/
theorem c1_counterexample :
    cleanUpModelTerminal false [cexStale] = [] ∧
    cleanUpModelTerminal false [cexDeclared] =
      [Node.mk "fresh" "m" (.i 2) "number" (.i 3) false .null .null .null .null []] := by
  constructor
  · simp [cleanUpModelTerminal, cleanUpList, cexStale, JVal.isNull, JVal.asInt]
  · simp [cleanUpModelTerminal, cleanUpList, cexDeclared, JVal.isNull, JVal.asInt]

/-- C1 (amended): run once after all subsystems have declared — a pass in
which `initVar` marks every declared node's order negative — the terminal
sweep removes exactly those nodes whose order field is absent or non-negative
(the nodes NOT re-declared in the pass), unless the showObsolete diagnostic
flag is set, in which case removal is suppressed (no node is removed); each
kept declared node's negative order is flipped back positive, and every node
remaining after the sweep has a non-negative order (an absent order field
reads as 0). -/
theorem c1_terminal_sweep (showObsolete : Bool) (model : List Node) :
    cleanUpModelTerminal showObsolete model = specSweepTerminal showObsolete model ∧
    (showObsolete = true →
      (flattenNodes (cleanUpModelTerminal showObsolete model)).length =
        (flattenNodes model).length) ∧
    ∀ v ∈ flattenNodes (cleanUpModelTerminal showObsolete model), 0 ≤ v.order := by
  have h := cleanUpList_eq_specSweepTerminal showObsolete model false
  refine ⟨h, ?_, ?_⟩
  · intro hso
    subst hso
    simp only [cleanUpModelTerminal] at h ⊢
    rw [h]
    exact specSweepTerminal_suppressed model
  · simp only [cleanUpModelTerminal] at h ⊢
    rw [h]
    exact specSweepTerminal_order showObsolete model

/-- C1 (witness): the amended theorem on the one-node tree `[cexStale]` with
showObsolete set: the sweep equals the spec-side sweep, removal is suppressed
(the flattened size is unchanged), and the kept node's order is
non-negative. -/
theorem c1_terminal_sweep_witness :
    cleanUpModelTerminal true [cexStale] = specSweepTerminal true [cexStale] ∧
    (flattenNodes (cleanUpModelTerminal true [cexStale])).length =
      (flattenNodes [cexStale]).length ∧
    0 ≤ ((cleanUpModelTerminal true [cexStale]).getD 0 nullVar).order := by
  have h := c1_terminal_sweep true [cexStale]
  refine ⟨h.1, h.2.1 rfl, h.2.2 ((cleanUpModelTerminal true [cexStale]).getD 0 nullVar) ?_⟩
  have hs : cleanUpModelTerminal true [cexStale] = [cexStale] := by
    rw [h.1]
    simp [specSweepTerminal, cexStale, JVal.isNull, JVal.asInt]
  rw [hs]
  simp [flattenNodes, cexStale]

theorem padWhile_eq_fuel (sent : α) (rowNr : Nat) :
    ∀ (fuel : Nat) (xs : List α), rowNr + 1 - xs.length ≤ fuel →
      padWhile sent rowNr xs = xs ++ List.replicate (rowNr + 1 - xs.length) sent := by
  intro fuel
  induction fuel with
  | zero =>
    intro xs h
    rw [padWhile, if_neg (by omega)]
    simp [show rowNr + 1 - xs.length = 0 from by omega]
  | succ m ih =>
    intro xs h
    rw [padWhile]
    by_cases hlen : xs.length ≤ rowNr
    · rw [if_pos hlen, ih (xs ++ [sent])
        (by simp only [List.length_append, List.length_cons, List.length_nil]; omega)]
      have h1 : rowNr + 1 - xs.length = (rowNr - xs.length) + 1 := by omega
      have h2 : rowNr + 1 - (xs.length + 1) = rowNr - xs.length := by omega
      simp only [List.length_append, List.length_cons, List.length_nil, Nat.add_zero,
        h1, h2, List.replicate_succ]
      simp
    · rw [if_neg hlen]
      simp [show rowNr + 1 - xs.length = 0 from by omega]

theorem padWhile_eq (sent : α) (rowNr : Nat) (xs : List α) :
    padWhile sent rowNr xs = xs ++ List.replicate (rowNr + 1 - xs.length) sent :=
  padWhile_eq_fuel sent rowNr (rowNr + 1) xs (by omega)

theorem replicate_set_last (k : Nat) (sent v : α) :
    (List.replicate (k + 1) sent).set k v = List.replicate k sent ++ [v] := by
  induction k with
  | zero => rfl
  | succ m ih =>
    rw [List.replicate_succ, List.set_cons_succ, ih, List.replicate_succ,
      List.cons_append]

theorem set_append_replicate (xs : List α) (k : Nat) (sent v : α) :
    (xs ++ List.replicate (k + 1) sent).set (xs.length + k) v =
      xs ++ (List.replicate k sent ++ [v]) := by
  induction xs with
  | nil => simpa using replicate_set_last k sent v
  | cons x rest ih =>
    have hidx : (x :: rest).length + k = (rest.length + k) + 1 := by
      simp; omega
    rw [List.cons_append, hidx, List.set_cons_succ, ih, List.cons_append]

theorem padWhile_set (sent v : α) (rowNr : Nat) (xs : List α) (h : xs.length ≤ rowNr) :
    (padWhile sent rowNr xs).set rowNr v =
      xs ++ (List.replicate (rowNr - xs.length) sent ++ [v]) := by
  obtain ⟨k, hk⟩ : ∃ k, rowNr = xs.length + k := ⟨rowNr - xs.length, by omega⟩
  subst hk
  rw [padWhile_eq]
  have h1 : xs.length + k + 1 - xs.length = k + 1 := by omega
  have h2 : xs.length + k - xs.length = k := by omega
  rw [h1, h2]
  exact set_append_replicate xs k sent v

/-- C3: for a row-array binding (node value an array, "p" a single non-zero
pointer) of a recognized type tag, an onChange trigger for an actual row `r`
whose native sequence length is ≤ r extends the sequence to length r + 1,
fills the newly created slots with the type's sentinel (255 for
select/range/pin, UINT16_MAX for number, 255 for the tri-state checkbox, the
empty string for text/fileEdit, (-1,-1,-1) for coord3D), and writes the node's
row-r value into slot r. -/
theorem c3_row_growth (env : Env) (st : TState) (var : Node) (rowNr : Nat) (init : Bool)
    (pv : Int) (hp : var.p = JVal.i pv) (hpv : pv ≠ 0)
    (hvarr : var.value.isArr = true) (hrow : rowNr ≠ 255) :
    (∀ xs, (var.type = "select" ∨ var.type = "range" ∨ var.type = "pin") →
      st.heap pv = some (.vu8 xs) → xs.length ≤ rowNr →
      (triggerEvent env st var onChange rowNr init).1.heap pv =
        some (.vu8 (xs ++ (List.replicate (rowNr - xs.length) 255 ++
          [(var.value.index rowNr).asU8])))) ∧
    (∀ xs, var.type = "number" → st.heap pv = some (.vu16 xs) → xs.length ≤ rowNr →
      (triggerEvent env st var onChange rowNr init).1.heap pv =
        some (.vu16 (xs ++ (List.replicate (rowNr - xs.length) 65535 ++
          [(var.value.index rowNr).asU16])))) ∧
    (∀ xs, var.type = "checkbox" → st.heap pv = some (.vb3 xs) → xs.length ≤ rowNr →
      (triggerEvent env st var onChange rowNr init).1.heap pv =
        some (.vb3 (xs ++ (List.replicate (rowNr - xs.length) 255 ++
          [(var.value.index rowNr).asBool3])))) ∧
    (∀ xs, (var.type = "text" ∨ var.type = "fileEdit") → st.heap pv = some (.vstr xs) →
      xs.length ≤ rowNr →
      (triggerEvent env st var onChange rowNr init).1.heap pv =
        some (.vstr (xs ++ (List.replicate (rowNr - xs.length) "" ++
          [(var.value.index rowNr).asCStr])))) ∧
    (∀ xs, var.type = "coord3D" → st.heap pv = some (.vc3 xs) → xs.length ≤ rowNr →
      (triggerEvent env st var onChange rowNr init).1.heap pv =
        some (.vc3 (xs ++ (List.replicate (rowNr - xs.length) (⟨-1, -1, -1⟩ : Coord3D) ++
          [(var.value.index rowNr).asCoord3D])))) := by
  have hheap : (triggerEvent env st var onChange rowNr init).1.heap =
      pointerSync var rowNr st.heap := by
    rw [triggerEvent_heap, if_pos ⟨rfl, by simp [hp, JVal.isNull]⟩]
  have hps : ∀ objv, st.heap pv = some objv →
      (triggerEvent env st var onChange rowNr init).1.heap pv =
        some (pointerSyncArr var.type rowNr (var.value.index rowNr) objv) := by
    intro objv hobj
    obtain ⟨vs, hvs⟩ : ∃ vs, var.value = JVal.arr vs := by
      cases hval : var.value <;> simp_all [JVal.isArr]
    rw [hheap]
    simp only [pointerSync, hp, hvs]
    simp [JVal.isArr, JVal.asInt, hpv, hrow, hobj, Heap.write]
  refine ⟨?_, ?_, ?_, ?_, ?_⟩
  · intro xs hty hobj hlen
    rcases hty with hty | hty | hty <;>
      (rw [hps _ hobj, hty]; simp [pointerSyncArr, padWhile_set _ _ _ _ hlen])
  · intro xs hty hobj hlen
    rw [hps _ hobj, hty]
    simp [pointerSyncArr, padWhile_set _ _ _ _ hlen]
  · intro xs hty hobj hlen
    rw [hps _ hobj, hty]
    simp [pointerSyncArr, padWhile_set _ _ _ _ hlen]
  · intro xs hty hobj hlen
    rcases hty with hty | hty <;>
      (rw [hps _ hobj, hty]; simp [pointerSyncArr, padWhile_set _ _ _ _ hlen])
  · intro xs hty hobj hlen
    rw [hps _ hobj, hty]
    simp [pointerSyncArr, padWhile_set _ _ _ _ hlen]

/-- C3 (witness): setting row 3 on an initially empty numeric column bound at
pointer 7 yields a native sequence of length 4 with the sentinel UINT16_MAX at
indices 0-2 and the set value 42 at index 3. -/
theorem c3_row_growth_witness :
    (triggerEvent env0 w3St w3Var onChange 3 false).1.heap 7 =
      some (.vu16 [65535, 65535, 65535, 42]) := by
  have h := (c3_row_growth env0 w3St w3Var 3 false 7 rfl (by decide) rfl
    (by decide)).2.1 [] rfl rfl (by decide)
  simpa [w3Var, JVal.index, JVal.asArr, JVal.asU16, JVal.asInt, Node.value,
    List.replicate] using h

theorem deleteChildPointer_other (rowNr : Nat) (h : Heap) (c : Node) (q : Int)
    (hq : q ≠ colPointer rowNr c) :
    deleteChildPointer rowNr h c q = h q := by
  simp only [deleteChildPointer]
  split_ifs with h0
  · cases hh : h (colPointer rowNr c) <;> simp [hh, Heap.write, hq]
  · rfl

theorem foldDelete_other (rowNr : Nat) (q : Int) :
    ∀ (cs : List Node) (h : Heap), (∀ c ∈ cs, q ≠ colPointer rowNr c) →
      (cs.foldl (fun h c => deleteChildPointer rowNr h c) h) q = h q := by
  intro cs
  induction cs with
  | nil => intro h _; rfl
  | cons c rest ih =>
    intro h hall
    rw [List.foldl_cons, ih _ (fun c' hc' => hall c' (List.mem_cons_of_mem _ hc')),
      deleteChildPointer_other _ _ _ _ (hall c (List.mem_cons_self _ _))]

theorem deleteChildPointer_at (rowNr : Nat) (h : Heap) (c : Node) (pv : Int)
    (hc : colPointer rowNr c = pv) (hpv : pv ≠ 0) (objv : NativeObj)
    (hobj : h pv = some objv) :
    deleteChildPointer rowNr h c pv = some (eraseRowTyped c.type rowNr objv) := by
  simp only [deleteChildPointer, hc]
  rw [if_pos hpv]
  simp [hobj, Heap.write]

theorem foldDelete_at (rowNr : Nat) (pv : Int) (hpv : pv ≠ 0) :
    ∀ (cs : List Node) (i : Nat) (hi : i < cs.length) (h : Heap) (objv : NativeObj),
      colPointer rowNr cs[i] = pv →
      (∀ j, (hj : j < cs.length) → j ≠ i → colPointer rowNr cs[j] ≠ pv) →
      h pv = some objv →
      (cs.foldl (fun h c => deleteChildPointer rowNr h c) h) pv =
        some (eraseRowTyped cs[i].type rowNr objv) := by
  intro cs
  induction cs with
  | nil => intro i hi; simp at hi
  | cons c rest ih =>
    intro i hi h objv hc hothers hobj
    cases i with
    | zero =>
      rw [List.foldl_cons]
      rw [foldDelete_other rowNr pv rest _ ?hrest]
      · simp only [List.getElem_cons_zero] at hc ⊢
        exact deleteChildPointer_at rowNr h c pv hc hpv objv hobj
      case hrest =>
        intro c' hc'
        obtain ⟨j, hj, hget⟩ := List.mem_iff_getElem.mp hc'
        have hne := hothers (j + 1) (by simp; omega) (by omega)
        rw [List.getElem_cons_succ, hget] at hne
        exact fun hqq => hne hqq.symm
    | succ m =>
      rw [List.foldl_cons]
      have hc0 : colPointer rowNr c ≠ pv := by
        have h0 := hothers 0 (by simp) (by omega)
        simpa using h0
      have hobj' : (deleteChildPointer rowNr h c) pv = some objv := by
        rw [deleteChildPointer_other rowNr h c pv hc0.symm]
        exact hobj
      have hi' : m < rest.length := by simp at hi; omega
      have hc' : colPointer rowNr rest[m] = pv := by
        simpa using hc
      have hothers' : ∀ j, (hj : j < rest.length) → j ≠ m →
          colPointer rowNr rest[j] ≠ pv := by
        intro j hj hjm
        have := hothers (j + 1) (by simp; omega) (by omega)
        simpa using this
      have := ih m hi' (deleteChildPointer rowNr h c) objv hc' hothers' hobj'
      simpa using this

/-- C4: triggering onDelete for row r on a table stages a response fragment
recording rowNr = r and, for each child column with a recognized type tag and a
non-zero bound pointer (not shared with another column) whose native sequence
length exceeds r, erases the native slot at index r: the sequence shrinks by
one and all subsequent elements shift down one position
(`take r ++ drop (r+1)`). -/
theorem c4_delete_cascade (env : Env) (st : TState) (var : Node) (rowNr : Nat)
    (init : Bool) (i : Nat) (hi : i < var.children.length) (pv : Int)
    (hcp : colPointer rowNr var.children[i] = pv) (hpv : pv ≠ 0)
    (hothers : ∀ j, (hj : j < var.children.length) → j ≠ i →
      colPointer rowNr var.children[j] ≠ pv) :
    (triggerEvent env st var onDelete rowNr init).1.onDeleteRowNr = some rowNr ∧
    ((∀ xs, (var.children[i].type = "select" ∨ var.children[i].type = "range" ∨
        var.children[i].type = "pin") →
      st.heap pv = some (.vu8 xs) → rowNr < xs.length →
      (triggerEvent env st var onDelete rowNr init).1.heap pv =
        some (.vu8 (xs.take rowNr ++ xs.drop (rowNr + 1)))) ∧
    (∀ xs, var.children[i].type = "number" →
      st.heap pv = some (.vu16 xs) → rowNr < xs.length →
      (triggerEvent env st var onDelete rowNr init).1.heap pv =
        some (.vu16 (xs.take rowNr ++ xs.drop (rowNr + 1)))) ∧
    (∀ xs, var.children[i].type = "checkbox" →
      st.heap pv = some (.vb3 xs) → rowNr < xs.length →
      (triggerEvent env st var onDelete rowNr init).1.heap pv =
        some (.vb3 (xs.take rowNr ++ xs.drop (rowNr + 1)))) ∧
    (∀ xs, (var.children[i].type = "text" ∨ var.children[i].type = "fileEdit") →
      st.heap pv = some (.vstr xs) → rowNr < xs.length →
      (triggerEvent env st var onDelete rowNr init).1.heap pv =
        some (.vstr (xs.take rowNr ++ xs.drop (rowNr + 1)))) ∧
    (∀ xs, var.children[i].type = "coord3D" →
      st.heap pv = some (.vc3 xs) → rowNr < xs.length →
      (triggerEvent env st var onDelete rowNr init).1.heap pv =
        some (.vc3 (xs.take rowNr ++ xs.drop (rowNr + 1))))) := by
  have hheap : (triggerEvent env st var onDelete rowNr init).1.heap =
      deleteCascade var rowNr st.heap := by
    rw [triggerEvent_heap, if_neg (by simp [onDelete, onChange]), if_pos rfl]
  have hfold : ∀ objv, st.heap pv = some objv →
      (triggerEvent env st var onDelete rowNr init).1.heap pv =
        some (eraseRowTyped var.children[i].type rowNr objv) := by
    intro objv hobj
    rw [hheap]
    exact foldDelete_at rowNr pv hpv var.children i hi st.heap objv hcp hothers hobj
  refine ⟨by rw [triggerEvent_onDeleteRowNr]; simp, ?_, ?_, ?_, ?_, ?_⟩
  · intro xs hty hobj hlt
    rcases hty with hty | hty | hty <;>
      (rw [hfold _ hobj, hty];
       simp [eraseRowTyped, hlt, List.eraseIdx_eq_take_drop_succ])
  · intro xs hty hobj hlt
    rw [hfold _ hobj, hty]
    simp [eraseRowTyped, hlt, List.eraseIdx_eq_take_drop_succ]
  · intro xs hty hobj hlt
    rw [hfold _ hobj, hty]
    simp [eraseRowTyped, hlt, List.eraseIdx_eq_take_drop_succ]
  · intro xs hty hobj hlt
    rcases hty with hty | hty <;>
      (rw [hfold _ hobj, hty];
       simp [eraseRowTyped, hlt, List.eraseIdx_eq_take_drop_succ])
  · intro xs hty hobj hlt
    rw [hfold _ hobj, hty]
    simp [eraseRowTyped, hlt, List.eraseIdx_eq_take_drop_succ]

/-- C4 (witness): deleting row 1 of the 3-row table `w4Table` with two bound
columns (numeric at pointer 1, select at pointer 2) leaves both native
sequences at length 2 with former row 2's data now at index 1, and stages
rowNr = 1. -/
theorem c4_delete_cascade_witness :
    (triggerEvent env0 w4St w4Table onDelete 1 false).1.onDeleteRowNr = some 1 ∧
    (triggerEvent env0 w4St w4Table onDelete 1 false).1.heap 1 =
      some (.vu16 [10, 12]) ∧
    (triggerEvent env0 w4St w4Table onDelete 1 false).1.heap 2 =
      some (.vu8 [20, 22]) := by
  have hA := c4_delete_cascade env0 w4St w4Table 1 false 0 (by decide) 1
    (by decide) (by decide) (by decide)
  have hB := c4_delete_cascade env0 w4St w4Table 1 false 1 (by decide) 2
    (by decide) (by decide) (by decide)
  refine ⟨hA.1, ?_, ?_⟩
  · have h := hA.2.2.1 [10, 11, 12] rfl rfl (by decide)
    simpa using h
  · have h := hB.2.1 [20, 21, 22] (by decide) rfl (by decide)
    simpa using h

/-- C7: when the stored handler index is present but at least the size of the
global handler table, no handler is invoked (the instrumentation trace is
unchanged), the returned effect-applied flag is false, and the rest of the
event processing still completes: pointer synchronization for onChange, the
delete cascade and the row staging for onAdd/onDelete, and the change
notification, all exactly as they would without a handler. -/
theorem c7_handler_oob (env : Env) (st : TState) (var : Node) (e r : Nat) (init : Bool)
    (hfun : var.funNr.isNull = false)
    (hk : env.varEvents.length ≤ var.funNr.asSizeT) :
    (triggerEvent env st var e r init).2 = false ∧
    (triggerEvent env st var e r init).1.handlerCalls = st.handlerCalls ∧
    (triggerEvent env st var e r init).1.heap =
      (if e = onChange ∧ ¬var.p.isNull then pointerSync var r st.heap
       else if e = onDelete then deleteCascade var r st.heap else st.heap) ∧
    (triggerEvent env st var e r init).1.onAddRowNr =
      (if e = onAdd then some r else st.onAddRowNr) ∧
    (triggerEvent env st var e r init).1.onDeleteRowNr =
      (if e = onDelete then some r else st.onDeleteRowNr) ∧
    (triggerEvent env st var e r init).1.changedVarsQueue =
      (if e = onChange ∧ ¬init ∧ ¬var.dash.isNull then st.changedVarsQueue ++ [var]
       else st.changedVarsQueue) := by
  have hstep : ∀ (X : TState) (eAny : Nat), handlerStep env X var eAny r = (X, false) := by
    intro X eAny
    simp only [handlerStep]
    rw [if_pos (by simp [hfun]), dif_neg (by omega)]
  refine ⟨?_, ?_, triggerEvent_heap env st var e r init,
    triggerEvent_onAddRowNr env st var e r init,
    triggerEvent_onDeleteRowNr env st var e r init,
    triggerEvent_queue env st var e r init⟩
  · have hcoreR : ∀ (X : TState) (eAny : Nat) (iAny : Bool),
        (triggerEventCore env X var eAny r iAny).2 = false := by
      intro X eAny iAny
      simp [triggerEventCore, hstep, apply_ite Prod.snd]
    simp only [triggerEvent]
    by_cases hU : e = onUI ∧ var.ro
    · rw [if_pos hU]
      exact hcoreR st e init
    · rw [if_neg hU]
      exact hcoreR st e init
  · have hcoreH : ∀ (X : TState) (eAny : Nat) (iAny : Bool),
        (triggerEventCore env X var eAny r iAny).1.handlerCalls = X.handlerCalls := by
      intro X eAny iAny
      by_cases hC : eAny = onChange
      · subst hC
        simp [triggerEventCore, onChange, onAdd, onDelete, hstep,
          apply_ite TState.handlerCalls]
      · by_cases hD : eAny = onDelete
        · subst hD
          simp [triggerEventCore, onChange, onAdd, onDelete, hstep,
            apply_ite TState.handlerCalls]
        · by_cases hA : eAny = onAdd
          · subst hA
            simp [triggerEventCore, onChange, onAdd, onDelete, hstep,
              apply_ite TState.handlerCalls]
          · simp [triggerEventCore, hC, hD, hA, hstep, apply_ite TState.handlerCalls]
    simp only [triggerEvent]
    by_cases hU : e = onUI ∧ var.ro
    · rw [if_pos hU]
      simp only [hcoreH]
    · rw [if_neg hU]
      exact hcoreH st e init

/-- C7 (witness): with an empty handler table and a var whose "fun" index is 0,
an onDelete trigger invokes no handler, returns false, and still stages the
deleted row number. -/
theorem c7_handler_oob_witness :
    (triggerEvent env0 st0 w7Var onDelete 3 false).2 = false ∧
    (triggerEvent env0 st0 w7Var onDelete 3 false).1.handlerCalls = [] ∧
    (triggerEvent env0 st0 w7Var onDelete 3 false).1.onDeleteRowNr = some 3 := by
  have h := c7_handler_oob env0 st0 w7Var onDelete 3 false rfl (by decide)
  refine ⟨h.1, ?_, ?_⟩
  · have h2 := h.2.1
    simpa [st0] using h2
  · have h3 := h.2.2.2.2.1
    simpa using h3

mutual

theorem findRec_notfound : ∀ (opts : JVal) (g : Option String) (sv value : Nat),
    value < 256 → sv + (flattenOptions opts g).length ≤ value →
    findOptionsTextRec opts sv value g = (sv + (flattenOptions opts g).length, none)
  | .arr xs, g, sv, value, h256, hlen => by
    have h := findRecArr_notfound xs g sv value h256
      (by simpa [flattenOptions] using hlen)
    simpa [findOptionsTextRec, flattenOptions] using h
  | .obj xs, g, sv, value, h256, hlen => by
    have h := findRecObj_notfound xs g sv value h256
      (by simpa [flattenOptions] using hlen)
    simpa [findOptionsTextRec, flattenOptions] using h
  | .null, g, sv, value, h256, hlen => by
    simp only [flattenOptions, List.length_cons, List.length_nil] at hlen ⊢
    rw [findOptionsTextRec] <;> try (intro xs hcontra; exact JVal.noConfusion hcontra)
    rw [if_neg (by omega)]
    rw [Nat.mod_eq_of_lt (by omega : sv + 1 < 256)]
  | .b bv, g, sv, value, h256, hlen => by
    simp only [flattenOptions, List.length_cons, List.length_nil] at hlen ⊢
    rw [findOptionsTextRec] <;> try (intro xs hcontra; exact JVal.noConfusion hcontra)
    rw [if_neg (by omega)]
    rw [Nat.mod_eq_of_lt (by omega : sv + 1 < 256)]
  | .i iv, g, sv, value, h256, hlen => by
    simp only [flattenOptions, List.length_cons, List.length_nil] at hlen ⊢
    rw [findOptionsTextRec] <;> try (intro xs hcontra; exact JVal.noConfusion hcontra)
    rw [if_neg (by omega)]
    rw [Nat.mod_eq_of_lt (by omega : sv + 1 < 256)]
  | .s sval, g, sv, value, h256, hlen => by
    simp only [flattenOptions, List.length_cons, List.length_nil] at hlen ⊢
    rw [findOptionsTextRec] <;> try (intro xs hcontra; exact JVal.noConfusion hcontra)
    rw [if_neg (by omega)]
    rw [Nat.mod_eq_of_lt (by omega : sv + 1 < 256)]

theorem findRecArr_notfound : ∀ (xs : List JVal) (g : Option String) (sv value : Nat),
    value < 256 → sv + (flattenOptionsArr xs g).length ≤ value →
    findOptionsTextRecArr xs sv value g =
      (sv + (flattenOptionsArr xs g).length, none)
  | [], g, sv, value, _, _ => by
    simp [findOptionsTextRecArr, flattenOptionsArr]
  | x :: rest, g, sv, value, h256, hlen => by
    have hlenx : sv + (flattenOptions x g).length ≤ value := by
      simp only [flattenOptionsArr, List.length_append] at hlen
      omega
    have h1 := findRec_notfound x g sv value h256 hlenx
    rw [findOptionsTextRecArr, h1]
    have h2 := findRecArr_notfound rest g (sv + (flattenOptions x g).length) value h256
      (by simp only [flattenOptionsArr, List.length_append] at hlen; omega)
    show findOptionsTextRecArr rest (sv + (flattenOptions x g).length) value g = _
    rw [h2]
    simp only [flattenOptionsArr, List.length_append]
    rw [Nat.add_assoc]

theorem findRecObj_notfound :
    ∀ (xs : List (String × JVal)) (g : Option String) (sv value : Nat),
    value < 256 → sv + (flattenOptionsObj xs g).length ≤ value →
    findOptionsTextRecObj xs sv value g =
      (sv + (flattenOptionsObj xs g).length, none)
  | [], g, sv, value, _, _ => by
    simp [findOptionsTextRecObj, flattenOptionsObj]
  | (k, v) :: rest, g, sv, value, h256, hlen => by
    have hlenx : sv + (flattenOptions v (some (g.getD k))).length ≤ value := by
      simp only [flattenOptionsObj, List.length_append] at hlen
      omega
    have h1 := findRec_notfound v (some (g.getD k)) sv value h256 hlenx
    rw [findOptionsTextRecObj, h1]
    have h2 := findRecObj_notfound rest g
      (sv + (flattenOptions v (some (g.getD k))).length) value h256
      (by simp only [flattenOptionsObj, List.length_append] at hlen; omega)
    show findOptionsTextRecObj rest (sv + (flattenOptions v (some (g.getD k))).length) value g = _
    rw [h2]
    simp only [flattenOptionsObj, List.length_append]
    rw [Nat.add_assoc]

end


mutual

theorem findRec_found : ∀ (opts : JVal) (g : Option String) (sv value : Nat),
    sv ≤ value → value < 256 →
    value - sv < (flattenOptions opts g).length →
    findOptionsTextRec opts sv value g =
      (value, some ((flattenOptions opts g).getD (value - sv) (none, none)))
  | .arr xs, g, sv, value, hsv, h256, hlt => by
    have h := findRecArr_found xs g sv value hsv h256
      (by simpa [flattenOptions] using hlt)
    simpa [findOptionsTextRec, flattenOptions] using h
  | .obj xs, g, sv, value, hsv, h256, hlt => by
    have h := findRecObj_found xs g sv value hsv h256
      (by simpa [flattenOptions] using hlt)
    simpa [findOptionsTextRec, flattenOptions] using h
  | .null, g, sv, value, hsv, h256, hlt => by
    simp only [flattenOptions, List.length_cons, List.length_nil] at hlt
    have hveq : value = sv := by omega
    subst hveq
    rw [findOptionsTextRec] <;> try (intro xs hcontra; exact JVal.noConfusion hcontra)
    rw [if_pos rfl]
    simp [flattenOptions]
  | .b bv, g, sv, value, hsv, h256, hlt => by
    simp only [flattenOptions, List.length_cons, List.length_nil] at hlt
    have hveq : value = sv := by omega
    subst hveq
    rw [findOptionsTextRec] <;> try (intro xs hcontra; exact JVal.noConfusion hcontra)
    rw [if_pos rfl]
    simp [flattenOptions]
  | .i iv, g, sv, value, hsv, h256, hlt => by
    simp only [flattenOptions, List.length_cons, List.length_nil] at hlt
    have hveq : value = sv := by omega
    subst hveq
    rw [findOptionsTextRec] <;> try (intro xs hcontra; exact JVal.noConfusion hcontra)
    rw [if_pos rfl]
    simp [flattenOptions]
  | .s sval, g, sv, value, hsv, h256, hlt => by
    simp only [flattenOptions, List.length_cons, List.length_nil] at hlt
    have hveq : value = sv := by omega
    subst hveq
    rw [findOptionsTextRec] <;> try (intro xs hcontra; exact JVal.noConfusion hcontra)
    rw [if_pos rfl]
    simp [flattenOptions]

theorem findRecArr_found : ∀ (xs : List JVal) (g : Option String) (sv value : Nat),
    sv ≤ value → value < 256 →
    value - sv < (flattenOptionsArr xs g).length →
    findOptionsTextRecArr xs sv value g =
      (value, some ((flattenOptionsArr xs g).getD (value - sv) (none, none)))
  | [], g, sv, value, _, _, hlt => by
    simp [flattenOptionsArr] at hlt
  | x :: rest, g, sv, value, hsv, h256, hlt => by
    by_cases hhead : value - sv < (flattenOptions x g).length
    · have h1 := findRec_found x g sv value hsv h256 hhead
      rw [findOptionsTextRecArr, h1]
      show ((value : Nat), some ((flattenOptions x g).getD (value - sv) (none, none))) = _
      simp only [flattenOptionsArr]
      rw [List.getD_append _ _ _ _ hhead]
    · push_neg at hhead
      have hlenx : sv + (flattenOptions x g).length ≤ value := by omega
      have h1 := findRec_notfound x g sv value h256 hlenx
      rw [findOptionsTextRecArr, h1]
      show findOptionsTextRecArr rest (sv + (flattenOptions x g).length) value g = _
      have h2 := findRecArr_found rest g (sv + (flattenOptions x g).length) value
        (by omega) h256
        (by simp only [flattenOptionsArr, List.length_append] at hlt; omega)
      rw [h2]
      simp only [flattenOptionsArr]
      rw [List.getD_append_right _ _ _ _ (by omega)]
      have hidx : value - sv - (flattenOptions x g).length =
          value - (sv + (flattenOptions x g).length) := by omega
      rw [hidx]

theorem findRecObj_found :
    ∀ (xs : List (String × JVal)) (g : Option String) (sv value : Nat),
    sv ≤ value → value < 256 →
    value - sv < (flattenOptionsObj xs g).length →
    findOptionsTextRecObj xs sv value g =
      (value, some ((flattenOptionsObj xs g).getD (value - sv) (none, none)))
  | [], g, sv, value, _, _, hlt => by
    simp [flattenOptionsObj] at hlt
  | (k, v) :: rest, g, sv, value, hsv, h256, hlt => by
    by_cases hhead : value - sv < (flattenOptions v (some (g.getD k))).length
    · have h1 := findRec_found v (some (g.getD k)) sv value hsv h256 hhead
      rw [findOptionsTextRecObj, h1]
      show ((value : Nat),
        some ((flattenOptions v (some (g.getD k))).getD (value - sv) (none, none))) = _
      simp only [flattenOptionsObj]
      rw [List.getD_append _ _ _ _ hhead]
    · push_neg at hhead
      have hlenx : sv + (flattenOptions v (some (g.getD k))).length ≤ value := by omega
      have h1 := findRec_notfound v (some (g.getD k)) sv value h256 hlenx
      rw [findOptionsTextRecObj, h1]
      show findOptionsTextRecObj rest
        (sv + (flattenOptions v (some (g.getD k))).length) value g = _
      have h2 := findRecObj_found rest g
        (sv + (flattenOptions v (some (g.getD k))).length) value
        (by omega) h256
        (by simp only [flattenOptionsObj, List.length_append] at hlt; omega)
      rw [h2]
      simp only [flattenOptionsObj]
      rw [List.getD_append_right _ _ _ _ (by omega)]
      have hidx : value - sv - (flattenOptions v (some (g.getD k))).length =
          value - (sv + (flattenOptions v (some (g.getD k))).length) := by omega
      rw [hidx]

end


/-- C9: the options lookup searches the possibly grouped options structure
recursively, identifying each option by the count of options visited so far
(positional identity, counted in a uint8); a target value naming an existing
position yields that option's owning top-level group name and display text,
and a target value at or beyond the number of options present yields empty
group and option text (no abort). -/
theorem c9_options_lookup (options : JVal) (value : Nat) (h256 : value < 256) :
    (value < (flattenOptions options none).length →
      findOptionsText options value =
        (((flattenOptions options none).getD value (none, none)).1.getD "",
         ((flattenOptions options none).getD value (none, none)).2.getD "")) ∧
    ((flattenOptions options none).length ≤ value →
      findOptionsText options value = ("", "")) := by
  constructor
  · intro hlt
    rcases hpair : (flattenOptions options none).getD value (none, none) with ⟨g, t⟩
    have h := findRec_found options none 0 value (Nat.zero_le _) h256
      (by simpa using hlt)
    rw [Nat.sub_zero, hpair] at h
    simp [findOptionsText, h, hpair]
  · intro hge
    have h := findRec_notfound options none 0 value h256 (by simpa using hge)
    simp [findOptionsText, h]

/-- C9 (witness): in the grouped structure `w9Options` (G1: a, b; G2: c),
value 2 resolves positionally to ("G2", "c"), and the absent value 3 yields
empty strings. -/
theorem c9_options_lookup_witness :
    findOptionsText w9Options 2 = ("G2", "c") ∧
    findOptionsText w9Options 3 = ("", "") := by
  have hflat : flattenOptions w9Options none =
      [(some "G1", some "a"), (some "G1", some "b"), (some "G2", some "c")] := by
    simp [w9Options, flattenOptions, flattenOptionsArr, flattenOptionsObj,
      JVal.asJsonString]
  constructor
  · have h := (c9_options_lookup w9Options 2 (by omega)).1
    rw [hflat] at h
    simpa using h (by simp)
  · have h := (c9_options_lookup w9Options 3 (by omega)).2
    rw [hflat] at h
    simpa using h (by simp)


end SysMod
